import Mathlib

/-!
Verification of the job-building and dispatch flow of svgcleaner-gui's
main window controller (src/mainwindow.cpp), as a shallow embedding.

Strings model `QString`; a path separator is modelled as `'/'`
(`QDir::separator()` on the Unix build).  Machine sizes (`qint64` file
sizes) are modelled as `Nat` since the code only stores and copies them.
The `double` compression ratio is likewise modelled as an opaque stored
`Nat` carrier: the code under verification only copies it around.
-/

namespace SvgCleaner

/-- Cleaning status of a tree item (Status enum: Pending/Ok/Warning/Error). -/
inductive Status where
  | Pending
  | Ok
  | Warning
  | Error
deriving DecidableEq, Repr

/-- Qt's tri-state check state (`Qt::CheckState`). -/
inductive CheckState where
  | Unchecked
  | PartiallyChecked
  | Checked
deriving DecidableEq, Repr

/-- The saving policy (`AppSettings::SavingMethod`). -/
inductive SavingMethod where
  | SelectFolder
  | SameFolder
  | Overwrite
deriving DecidableEq, Repr

/-- The compressor choice (`Compressor::Type`); only whether it is `None`
matters to the dispatch flow. -/
inductive CompressorType where
  | None
  | Zopfli
  | SevenZip
deriving DecidableEq, Repr

/-- Per-item data of a tree node: path, cleaning status and metrics.
Modelled from the spec: the TreeItem attribute record (path, status,
status text, size-before, size-after, ratio, output path); `Option`
encodes a still-unset size/ratio. -/
structure ItemData where
  path : String
  status : Status := Status.Pending
  statusText : String := ""
  sizeBefore : Nat := 0
  sizeAfter : Option Nat := none
  ratio : Option Nat := none
  outPath : String := ""
deriving DecidableEq, Repr

/-- Settings read by `genOutputPath` and `onStart`:
`SettingKey::FilePrefix` and `SettingKey::FileSuffix` (renamed here to
`prefixStr`/`suffixStr`). -/
structure AppSettingsModel where
  prefixStr : String
  suffixStr : String
deriving DecidableEq, Repr

/-- Models `QString::endsWith(QChar)`: does the last character equal `c`. -/
def endsWithChar (s : String) (c : Char) : Bool :=
  s.data.getLast? == some c

/-- Models `QString::chop(1)`: remove the last character. -/
def chop (s : String) : String :=
  ⟨s.data.dropLast⟩

/-- The trailing-`z` strip both `genOutputPath` and `onStart` perform:
if the string ends in a case-insensitive `z`, the last character is
removed (`outPath.endsWith('z') || outPath.endsWith('Z')` then `chop(1)`). -/
def stripZ (s : String) : String :=
  if endsWithChar s 'z' || endsWithChar s 'Z' then chop s else s

/-- Models `QFileInfo::fileName`: the part of the path after the last `'/'`. -/
def fileName (path : String) : String :=
  ⟨(path.data.reverse.takeWhile (fun c => c != '/')).reverse⟩

/-- Models `QFileInfo::absolutePath`: the containing directory, i.e. the
path up to (excluding) the last `'/'`. -/
def absolutePath (path : String) : String :=
  ⟨((path.data.reverse.dropWhile (fun c => c != '/')).reverse).dropLast⟩

/-- Models `QDir::dirName`: the last component of a directory path. -/
def dirName (dir : String) : String :=
  ⟨(dir.data.reverse.takeWhile (fun c => c != '/')).reverse⟩

/-- Models `QDir(dir).relativeFilePath(path)` in the configuration the
traversal produces (`path` lies inside `dir`): the remainder of `path`
after `dir ++ "/"`.  Other configurations return `path` unchanged. -/
def relativeFilePath (dir path : String) : String :=
  if (dir ++ "/").data.isPrefixOf path.data then ⟨path.data.drop (dir.data.length + 1)⟩
  else path

/-- Models `QFileInfo::completeBaseName`: the file name up to (excluding)
the last `'.'`; the whole file name when it has no dot. -/
def completeBaseName (path : String) : String :=
  let n := fileName path
  if n.data.contains '.' then ⟨((n.data.reverse.dropWhile (fun c => c != '.')).drop 1).reverse⟩
  else n

/-- The policy `switch` of `genOutputPath` (mainwindow.cpp:347-373), before
the trailing-`z` strip.  `settings` carries the prefix/suffix that the C++
reads from `AppSettings` inside the `SameFolder` branch. -/
def genOutputPathRaw (settings : AppSettingsModel) (outFolder rootFolder path : String)
    (method : SavingMethod) : String :=
  match method with
  | SavingMethod.SelectFolder =>
    if rootFolder.isEmpty then
      outFolder ++ "/" ++ fileName path
    else
      outFolder ++ "/" ++ dirName rootFolder ++ "/" ++ relativeFilePath rootFolder path
  | SavingMethod.SameFolder =>
    absolutePath path ++ "/" ++ settings.prefixStr ++ completeBaseName path
      ++ settings.suffixStr ++ ".svg"
  | SavingMethod.Overwrite => path

/-- `genOutputPath` (mainwindow.cpp:341-381): resolve the output path for
one input `path` under the saving policy, then remove a trailing
case-insensitive `z` (the compressed-SVG extension). -/
def genOutputPath (settings : AppSettingsModel) (outFolder rootFolder path : String)
    (method : SavingMethod) : String :=
  stripZ (genOutputPathRaw settings outFolder rootFolder path method)

mutual

/-- A node of the file tree (`TreeItem`): enabled flag, tri-state checked
state, folder flag, per-item data and the list of children.  Modelled from
the spec: the TreeItem class itself lives outside the shown sources; the
spec's data model lists exactly these attributes. -/
inductive TreeItem : Type where
  | node (isEnabled : Bool) (checkState : CheckState) (isFolder : Bool)
      (data : ItemData) (children : TreeItemList) : TreeItem

/-- A list of tree items; a separate inductive (rather than `List TreeItem`)
so that traversals are structurally recursive. -/
inductive TreeItemList : Type where
  | nil : TreeItemList
  | cons (item : TreeItem) (rest : TreeItemList) : TreeItemList

end

/-- `TreeItem::isEnabled`. -/
def TreeItem.isEnabled : TreeItem → Bool
  | .node e _ _ _ _ => e

/-- `TreeItem::checkState`. -/
def TreeItem.checkState : TreeItem → CheckState
  | .node _ c _ _ _ => c

/-- `TreeItem::isFolder`. -/
def TreeItem.isFolder : TreeItem → Bool
  | .node _ _ f _ _ => f

/-- `TreeItem::data`. -/
def TreeItem.data : TreeItem → ItemData
  | .node _ _ _ d _ => d

/-- `TreeItem::childrenList`. -/
def TreeItem.childrenList : TreeItem → TreeItemList
  | .node _ _ _ _ cs => cs

/-- A flattened view of one node, for stating reachability. -/
structure ItemView where
  isEnabled : Bool
  checkState : CheckState
  isFolder : Bool
  data : ItemData
deriving DecidableEq, Repr

mutual

/-- Every node of the subtree rooted at an item (the item itself first,
then its descendants in document order). -/
def allItemsOf : TreeItem → List ItemView
  | .node e c f d children => ⟨e, c, f, d⟩ :: allItemsList children

/-- Every node reachable from a list of items, in document order. -/
def allItemsList : TreeItemList → List ItemView
  | .nil => []
  | .cons item rest => allItemsOf item ++ allItemsList rest

end

/-- One cleaning job (`Task::Config`): input path, resolved output path,
the originating item's data (standing in for the C++ back-pointer), and
the per-batch cleaner parameters filled in by `onStart`. -/
structure Config where
  inputPath : String
  outputPath : String
  treeItem : ItemData
  args : List String := []
  compressorType : CompressorType := CompressorType.None
  compressionLevel : Nat := 0
  compressOnlySvgz : Bool := false
deriving DecidableEq, Repr

mutual

/-- `genCleanData` (mainwindow.cpp:383-407) on one root item: traverse the
root's children; `rootFolder` is the C++ `QString&` accumulator threaded
through the whole traversal, `data` the job list built so far. -/
def genCleanData (root : TreeItem) (method : SavingMethod) (outFolder : String)
    (settings : AppSettingsModel) (rootFolder : String) (data : List Config) :
    String × List Config :=
  match root with
  | .node _ _ _ _ children =>
    genCleanDataList children method outFolder settings rootFolder data

/-- The `for (TreeItem *item : root->childrenList())` loop of `genCleanData`:
skip an item (and with it its whole subtree) unless it is enabled and
checked; recurse into folders, capturing the first folder as the root
folder; emit a job for each file. -/
def genCleanDataList (items : TreeItemList) (method : SavingMethod) (outFolder : String)
    (settings : AppSettingsModel) (rootFolder : String) (data : List Config) :
    String × List Config :=
  match items with
  | .nil => (rootFolder, data)
  | .cons item rest =>
    if item.isEnabled = false ∨ item.checkState ≠ CheckState.Checked then
      genCleanDataList rest method outFolder settings rootFolder data
    else if item.isFolder then
      let rootFolder1 := if rootFolder.isEmpty then item.data.path else rootFolder
      let res := genCleanData item method outFolder settings rootFolder1 data
      genCleanDataList rest method outFolder settings res.1 res.2
    else
      let conf : Config := {
        inputPath := item.data.path,
        outputPath := genOutputPath settings outFolder rootFolder item.data.path method,
        treeItem := item.data }
      genCleanDataList rest method outFolder settings rootFolder (data ++ [conf])

end

/-- Modelled from the spec: `TreeItem::resetCleanerData` is outside the
shown sources; per the spec's data model it clears the per-item cleaning
results (status back to Pending, message cleared, size-after/ratio/output
path unset). -/
def resetCleanerData (d : ItemData) : ItemData :=
  { d with
    status := Status.Pending
    statusText := ""
    sizeAfter := none
    ratio := none
    outPath := "" }

mutual

/-- `resetTreeData` (mainwindow.cpp:409-424): walk the tree; for every file
node re-read its size from disk when in overwrite mode (`disk` models
`QFile(path).size()`), then reset its cleaning data. -/
def resetTreeData (disk : String → Nat) (root : TreeItem) (isOverwriteMode : Bool) :
    TreeItem :=
  match root with
  | .node e c f d children =>
    .node e c f d (resetTreeDataList disk children isOverwriteMode)

/-- The child loop of `resetTreeData`. -/
def resetTreeDataList (disk : String → Nat) (items : TreeItemList) (isOverwriteMode : Bool) :
    TreeItemList :=
  match items with
  | .nil => .nil
  | .cons item rest =>
    let item1 :=
      if item.isFolder then resetTreeData disk item isOverwriteMode
      else
        match item with
        | .node e c f d children =>
          let d1 := if isOverwriteMode then { d with sizeBefore := disk d.path } else d
          TreeItem.node e c f (resetCleanerData d1) children
    .cons item1 (resetTreeDataList disk rest isOverwriteMode)

end

/-- The inputs `onStart` (mainwindow.cpp:426-532) reads from the UI, the
settings store, the filesystem and the cleaning watcher before building the
batch.  `outFolderIsDir`/`outFolderExists` model the `QFileInfo` queries on
the output folder, `compressorAvailable` models `Compressor::isAvailable`,
and `disk` models `QFile(path).size()`. -/
structure StartEnv where
  isPaused : Bool
  method : SavingMethod
  outFolder : String
  settings : AppSettingsModel
  outFolderIsDir : Bool
  outFolderExists : Bool
  useCompression : Bool
  compressorType : CompressorType
  compressorAvailable : Bool
  compressionLevel : Nat
  compressOnlySvgz : Bool
  args : List String
  disk : String → Nat

/-- What one `onStart` invocation does: resume a paused batch, reject with
one of the four warnings, or dispatch the filled job list. -/
inductive StartOutcome where
  | resumed
  | invalidOutputFolder
  | missingPrefixSuffix
  | compressorMissing
  | rejectedEmpty
  | rejectedCollision (duplFile : String)
  | dispatched (jobs : List Config)
deriving DecidableEq, Repr

/-- The model state after `onStart`: the (possibly reset) tree and the
outcome. -/
structure StartResult where
  tree : TreeItem
  outcome : StartOutcome

/-- The duplicate scan of `onStart` (mainwindow.cpp:492-505): walk the job
list, strip a trailing `z`/`Z` from each input path, and return the first
stripped path already seen (`QSet::contains`), or `""` when the scan
finishes without finding one (the `duplFile` sentinel). -/
def findDuplLoop : List Config → List String → String
  | [], _ => ""
  | t :: rest, set =>
    let path := stripZ t.inputPath
    if path ∈ set then path
    else findDuplLoop rest (path :: set)

/-- The tail of `onStart` after the tree reset and job-list build
(mainwindow.cpp:480-532): reject an empty list, reject when the duplicate
scan reports a non-empty path, otherwise fill each job's cleaner arguments
and dispatch. -/
def startJobs (env : StartEnv) (ct : CompressorType) (data : List Config) : StartOutcome :=
  if data.isEmpty then StartOutcome.rejectedEmpty
  else
    let duplFile := findDuplLoop data []
    if duplFile.isEmpty = false then StartOutcome.rejectedCollision duplFile
    else
      StartOutcome.dispatched (data.map (fun conf =>
        { conf with
          args := env.args
          compressorType := ct
          compressionLevel := env.compressionLevel
          compressOnlySvgz := env.compressOnlySvgz }))

/-- `MainWindow::onStart` (mainwindow.cpp:426-532): resume when paused;
validate the output folder (SelectFolder), the prefix/suffix (SameFolder)
and the compressor; then reset the tree's cleaning data, build the job
list with `genCleanData` and run the pre-dispatch checks of `startJobs`. -/
def onStart (env : StartEnv) (tree : TreeItem) : StartResult :=
  if env.isPaused then ⟨tree, StartOutcome.resumed⟩
  else if env.method = SavingMethod.SelectFolder ∧
      (env.outFolder.isEmpty = true ∨ env.outFolderIsDir = false ∨ env.outFolderExists = false) then
    ⟨tree, StartOutcome.invalidOutputFolder⟩
  else if env.method = SavingMethod.SameFolder ∧
      env.settings.prefixStr.isEmpty = true ∧ env.settings.suffixStr.isEmpty = true then
    ⟨tree, StartOutcome.missingPrefixSuffix⟩
  else
    let ct := if env.useCompression then env.compressorType else CompressorType.None
    if env.useCompression = true ∧ ct ≠ CompressorType.None ∧ env.compressorAvailable = false then
      ⟨tree, StartOutcome.compressorMissing⟩
    else
      let tree1 := resetTreeData env.disk tree (env.method = SavingMethod.Overwrite)
      let data := (genCleanData tree1 env.method env.outFolder env.settings "" []).2
      ⟨tree1, startJobs env ct data⟩

/-- The success payload of a job result (`Task::Output::OkData`). -/
structure OkData where
  outSize : Nat
  ratio : Nat
  outputPath : String
deriving DecidableEq, Repr

/-- One job result (`Task::Output`): outcome kind, back-reference to the
originating item (modelled as an index), and the error/warning/success
payloads.  Modelled from the spec: the Task class is outside the shown
sources; the spec lists exactly these fields. -/
structure TaskOutput where
  type : Status
  item : Nat
  errorMsg : String
  okData : OkData
  warningMsg : String
deriving DecidableEq, Repr

/-- The item mutation of `MainWindow::onResultReadyAt` (mainwindow.cpp:
547-579) applied to the originating item's data: on error set status and
message only; otherwise store size-after, ratio and output path, then set
Ok or Warning according to the result kind (the final `else` is the C++
`Q_UNREACHABLE()`, a no-op in a release build). -/
def onResultReadyAt (res : TaskOutput) (d : ItemData) : ItemData :=
  if res.type = Status.Error then
    { d with status := Status.Error, statusText := res.errorMsg }
  else
    let d1 := { d with
      status := Status.Ok
      sizeAfter := some res.okData.outSize
      ratio := some res.okData.ratio
      outPath := res.okData.outputPath }
    if res.type = Status.Ok then { d1 with status := Status.Ok }
    else if res.type = Status.Warning then
      { d1 with status := Status.Warning, statusText := res.warningMsg }
    else d1

/-- Deliver a whole batch of results in arrival order: each result updates
the data of its originating item (`items` maps item indices to data). -/
def deliverAll : List TaskOutput → (Nat → ItemData) → Nat → ItemData
  | [], items => items
  | res :: rest, items =>
    deliverAll rest (fun i => if i = res.item then onResultReadyAt res (items i) else items i)

mutual

/-- Written from the spec's words, for comparison with `genCleanData`: the
paths of the non-folder nodes produced by a traversal in which an item's
enabled/checked flags gate the item itself and, for a folder, descent into
its whole subtree. -/
def checkedFilesItem : TreeItem → List String
  | .node e c f d children =>
    if e = false ∨ c ≠ CheckState.Checked then []
    else if f then checkedFilesList children
    else [d.path]

/-- `checkedFilesItem` over a list of items, in document order. -/
def checkedFilesList : TreeItemList → List String
  | .nil => []
  | .cons item rest => checkedFilesItem item ++ checkedFilesList rest

end

/-- The job list `onStart` builds: `genCleanData` over the freshly reset
tree, starting from an empty root folder and an empty accumulator. -/
def builtJobs (env : StartEnv) (tree : TreeItem) : List Config :=
  (genCleanData (resetTreeData env.disk tree (env.method = SavingMethod.Overwrite))
    env.method env.outFolder env.settings "" []).2

/-- A fixture: an enabled, checked file node with no children. -/
def fileNode (p : String) : TreeItem :=
  .node true CheckState.Checked false { path := p } .nil

/-- A fixture: a `StartEnv` for the select-folder policy with output folder
"/out", no compression. -/
def fxEnvSel : StartEnv := {
  isPaused := false
  method := SavingMethod.SelectFolder
  outFolder := "/out"
  settings := ⟨"", ""⟩
  outFolderIsDir := true
  outFolderExists := true
  useCompression := false
  compressorType := CompressorType.None
  compressorAvailable := false
  compressionLevel := 0
  compressOnlySvgz := false
  args := []
  disk := fun _ => 0 }

/-- A fixture: the overwrite policy, disk reporting size 42 for every file. -/
def fxEnvOw : StartEnv :=
  { fxEnvSel with method := SavingMethod.Overwrite, disk := fun _ => 42 }

/-- A fixture: two top-level files whose distinct input paths resolve to the
same output path under the select-folder policy with no root folder. -/
def fxTreeCollide : TreeItem :=
  .node true CheckState.Checked true { path := "/" }
    (.cons (fileNode "/a/x.svg") (.cons (fileNode "/b/x.svg") .nil))

/-- A fixture: an SVG/SVGZ input pair in one directory. -/
def fxTreeSvgz : TreeItem :=
  .node true CheckState.Checked true { path := "/" }
    (.cons (fileNode "/a/x.svg") (.cons (fileNode "/a/x.svgz") .nil))

/-- A fixture: two files whose entire paths are just "z" and "Z", so the
stripped paths are both empty. -/
def fxTreeZZ : TreeItem :=
  .node true CheckState.Checked true { path := "/" }
    (.cons (fileNode "z") (.cons (fileNode "Z") .nil))

/-- A fixture: an enabled but unchecked folder holding an enabled, checked
file. -/
def fxTreeUnchecked : TreeItem :=
  .node true CheckState.Checked true { path := "/" }
    (.cons (.node true CheckState.Unchecked true { path := "/f" }
      (.cons (fileNode "/f/a.svg") .nil)) .nil)

/-- A fixture: a checked folder "/root" holding a checked folder "/root/sub"
holding the file "/root/sub/a.svg". -/
def fxTreeNested : TreeItem :=
  .node true CheckState.Checked true { path := "/" }
    (.cons (.node true CheckState.Checked true { path := "/root" }
      (.cons (.node true CheckState.Checked true { path := "/root/sub" }
        (.cons (fileNode "/root/sub/a.svg") .nil)) .nil)) .nil)

/-- A fixture: a single unchecked file that still displays an Ok result of
an earlier run. -/
def fxTreeOkFile : TreeItem :=
  .node true CheckState.Checked true { path := "/" }
    (.cons (.node true CheckState.Unchecked false
      { path := "/a/x.svg", status := Status.Ok, sizeAfter := some 5 } .nil) .nil)

/-- A fixture: a single enabled, checked file. -/
def fxTreeSingle : TreeItem :=
  .node true CheckState.Checked true { path := "/" }
    (.cons (fileNode "/a/x.svg") .nil)

/-- A string that ends in the literal ".svg" has last character `'g'`. -/
lemma getLast?_append_svg (x : String) : (x ++ ".svg").data.getLast? = some 'g' := by
  have h : (".svg".data : List Char) ≠ [] := by decide
  rw [String.data_append, List.getLast?_append_of_ne_nil x.data h]
  decide

/-- Appending ".svg" never produces a string ending in `z` or `Z`, so the
trailing-`z` strip is the identity on such strings. -/
lemma stripZ_append_svg (x : String) : stripZ (x ++ ".svg") = x ++ ".svg" := by
  unfold stripZ endsWithChar
  rw [getLast?_append_svg]
  simp

/-- C4: under the selected-folder policy, with no root folder captured the
output path is the output folder plus the input's file name; with a root
folder captured it is the output folder plus the root folder's directory
name plus the input's path relative to the root folder (each up to the
final trailing-z strip); and a traversal of "/root/sub/a.svg" under root
folder "/root" with output folder "/out" resolves to "/out/root/sub/a.svg". -/
theorem genOutputPath_selectFolder_spec :
    (∀ (settings : AppSettingsModel) (outFolder path : String),
      genOutputPath settings outFolder "" path SavingMethod.SelectFolder
        = stripZ (outFolder ++ "/" ++ fileName path)) ∧
    (∀ (settings : AppSettingsModel) (outFolder rootFolder path : String),
      rootFolder.isEmpty = false →
      genOutputPath settings outFolder rootFolder path SavingMethod.SelectFolder
        = stripZ (outFolder ++ "/" ++ dirName rootFolder ++ "/"
            ++ relativeFilePath rootFolder path)) ∧
    ((genCleanData fxTreeNested SavingMethod.SelectFolder "/out" ⟨"", ""⟩ "" []).2).map
        Config.outputPath = ["/out/root/sub/a.svg"] := by
  refine ⟨fun settings outFolder path => ?_, fun settings outFolder rootFolder path h => ?_,
    by decide⟩
  · rw [genOutputPath, genOutputPathRaw]
    rw [if_pos (by decide)]
  · simp [genOutputPath, genOutputPathRaw, h]

/-- Witness for C4 at root folder "/root" and input "/root/sub/a.svg". -/
theorem genOutputPath_selectFolder_spec_witness :
    genOutputPath ⟨"", ""⟩ "/out" "/root" "/root/sub/a.svg" SavingMethod.SelectFolder
      = stripZ ("/out" ++ "/" ++ dirName "/root" ++ "/"
          ++ relativeFilePath "/root" "/root/sub/a.svg") :=
  genOutputPath_selectFolder_spec.2.1 ⟨"", ""⟩ "/out" "/root" "/root/sub/a.svg" (by decide)

/-- C5: under the same-folder policy the output path is the input's
directory, the prefix, the input's base name without its extension, the
suffix and ".svg" (the trailing-z strip never fires because the path ends
in 'g'); input "/a/b.svgz" with prefix "pre_" resolves to "/a/pre_b.svg". -/
theorem genOutputPath_sameFolder_spec :
    (∀ (settings : AppSettingsModel) (outFolder rootFolder path : String),
      genOutputPath settings outFolder rootFolder path SavingMethod.SameFolder
        = absolutePath path ++ "/" ++ settings.prefixStr ++ completeBaseName path
          ++ settings.suffixStr ++ ".svg") ∧
    genOutputPath ⟨"pre_", ""⟩ "" "" "/a/b.svgz" SavingMethod.SameFolder = "/a/pre_b.svg" := by
  refine ⟨fun settings outFolder rootFolder path => ?_, by decide⟩
  show stripZ _ = _
  exact stripZ_append_svg _

/-- C6: for every policy, a computed output path that ends in a
case-insensitive 'z' has that character stripped; the overwrite policy
computes the input path itself, so when the input does not end in z/Z the
output equals the input exactly, as on "/a/b.svg". -/
theorem genOutputPath_stripZ_overwrite_spec :
    (∀ (settings : AppSettingsModel) (outFolder rootFolder path : String)
      (method : SavingMethod),
      (endsWithChar (genOutputPathRaw settings outFolder rootFolder path method) 'z'
        || endsWithChar (genOutputPathRaw settings outFolder rootFolder path method) 'Z')
          = true →
      genOutputPath settings outFolder rootFolder path method
        = chop (genOutputPathRaw settings outFolder rootFolder path method)) ∧
    (∀ (settings : AppSettingsModel) (outFolder rootFolder path : String),
      genOutputPathRaw settings outFolder rootFolder path SavingMethod.Overwrite = path) ∧
    (∀ (settings : AppSettingsModel) (outFolder rootFolder path : String),
      (endsWithChar path 'z' || endsWithChar path 'Z') = false →
      genOutputPath settings outFolder rootFolder path SavingMethod.Overwrite = path) ∧
    genOutputPath ⟨"", ""⟩ "" "" "/a/b.svg" SavingMethod.Overwrite = "/a/b.svg" := by
  refine ⟨fun s oF rF p m h => ?_, fun s oF rF p => rfl, fun s oF rF p h => ?_, by decide⟩
  · simp [genOutputPath, stripZ, h]
  · simp [genOutputPath, genOutputPathRaw, stripZ, h]

/-- Witness for C6: a z-ending raw path is chopped, and overwrite on
"/a/b.svg" is the identity. -/
theorem genOutputPath_stripZ_overwrite_spec_witness :
    genOutputPath ⟨"", ""⟩ "" "" "/a/b.svgz" SavingMethod.Overwrite
      = chop (genOutputPathRaw ⟨"", ""⟩ "" "" "/a/b.svgz" SavingMethod.Overwrite) ∧
    genOutputPath ⟨"", ""⟩ "" "" "/a/b.svg" SavingMethod.Overwrite = "/a/b.svg" :=
  ⟨genOutputPath_stripZ_overwrite_spec.1 ⟨"", ""⟩ "" "" "/a/b.svgz" SavingMethod.Overwrite
      (by decide),
   genOutputPath_stripZ_overwrite_spec.2.2.1 ⟨"", ""⟩ "" "" "/a/b.svg" (by decide)⟩

/-- C9: output-path resolution is a pure function of the policy, the
settings (prefix/suffix), the output folder, the root folder and the input
path: equal inputs give equal outputs. -/
theorem genOutputPath_deterministic :
    ∀ (s1 s2 : AppSettingsModel) (oF1 oF2 rF1 rF2 p1 p2 : String)
      (m1 m2 : SavingMethod),
      s1 = s2 → oF1 = oF2 → rF1 = rF2 → p1 = p2 → m1 = m2 →
      genOutputPath s1 oF1 rF1 p1 m1 = genOutputPath s2 oF2 rF2 p2 m2 := by
  intro s1 s2 oF1 oF2 rF1 rF2 p1 p2 m1 m2 h1 h2 h3 h4 h5
  subst h1
  subst h2
  subst h3
  subst h4
  subst h5
  rfl

/-- Witness for C9 at a concrete input tuple. -/
theorem genOutputPath_deterministic_witness :
    genOutputPath ⟨"a", "b"⟩ "/o" "/r" "/r/x.svg" SavingMethod.SelectFolder
      = genOutputPath ⟨"a", "b"⟩ "/o" "/r" "/r/x.svg" SavingMethod.SelectFolder :=
  genOutputPath_deterministic ⟨"a", "b"⟩ ⟨"a", "b"⟩ "/o" "/o" "/r" "/r" "/r/x.svg" "/r/x.svg"
    SavingMethod.SelectFolder SavingMethod.SelectFolder rfl rfl rfl rfl rfl

/-- C7: on a result of kind Error, the sink sets the item's status to Error
and stores the message, and leaves size-after, ratio and output path
exactly as they were. -/
theorem onResultReadyAt_error_frame :
    ∀ (res : TaskOutput) (d : ItemData), res.type = Status.Error →
      (onResultReadyAt res d).status = Status.Error ∧
      (onResultReadyAt res d).statusText = res.errorMsg ∧
      (onResultReadyAt res d).sizeAfter = d.sizeAfter ∧
      (onResultReadyAt res d).ratio = d.ratio ∧
      (onResultReadyAt res d).outPath = d.outPath := by
  intro res d h
  simp [onResultReadyAt, h]

/-- Witness for C7 at a concrete Error result. -/
theorem onResultReadyAt_error_frame_witness :
    (onResultReadyAt ⟨Status.Error, 0, "boom", ⟨1, 2, "/o"⟩, ""⟩ { path := "/a/x.svg" }).status
        = Status.Error ∧
    (onResultReadyAt ⟨Status.Error, 0, "boom", ⟨1, 2, "/o"⟩, ""⟩ { path := "/a/x.svg" }).statusText
        = (⟨Status.Error, 0, "boom", ⟨1, 2, "/o"⟩, ""⟩ : TaskOutput).errorMsg ∧
    (onResultReadyAt ⟨Status.Error, 0, "boom", ⟨1, 2, "/o"⟩, ""⟩ { path := "/a/x.svg" }).sizeAfter
        = ({ path := "/a/x.svg" } : ItemData).sizeAfter ∧
    (onResultReadyAt ⟨Status.Error, 0, "boom", ⟨1, 2, "/o"⟩, ""⟩ { path := "/a/x.svg" }).ratio
        = ({ path := "/a/x.svg" } : ItemData).ratio ∧
    (onResultReadyAt ⟨Status.Error, 0, "boom", ⟨1, 2, "/o"⟩, ""⟩ { path := "/a/x.svg" }).outPath
        = ({ path := "/a/x.svg" } : ItemData).outPath :=
  onResultReadyAt_error_frame ⟨Status.Error, 0, "boom", ⟨1, 2, "/o"⟩, ""⟩ { path := "/a/x.svg" } rfl

/-- Processing one result always leaves the item in a terminal status. -/
lemma onResultReadyAt_status_terminal (res : TaskOutput) (d : ItemData) :
    (onResultReadyAt res d).status = Status.Ok ∨
    (onResultReadyAt res d).status = Status.Warning ∨
    (onResultReadyAt res d).status = Status.Error := by
  cases h : res.type <;> simp [onResultReadyAt, h]

/-- Delivering further results never moves a terminal item back to Pending. -/
lemma deliverAll_keeps_terminal :
    ∀ (results : List TaskOutput) (st : Nat → ItemData) (i : Nat),
      ((st i).status = Status.Ok ∨ (st i).status = Status.Warning ∨
        (st i).status = Status.Error) →
      ((deliverAll results st i).status = Status.Ok ∨
       (deliverAll results st i).status = Status.Warning ∨
       (deliverAll results st i).status = Status.Error) := by
  intro results
  induction results with
  | nil => intro st i h; simpa [deliverAll] using h
  | cons r rs ih =>
    intro st i h
    rw [deliverAll]
    apply ih
    by_cases hi : i = r.item
    · simpa [hi] using onResultReadyAt_status_terminal r (st i)
    · simpa [hi] using h

/-- C8: every delivered result leaves its item with a status among Ok,
Warning and Error; hence once the results of all dispatched jobs have been
delivered, no dispatched item remains Pending. -/
theorem deliverAll_no_pending :
    ∀ (results : List TaskOutput) (items : Nat → ItemData) (i : Nat),
      i ∈ results.map TaskOutput.item →
      ((deliverAll results items i).status = Status.Ok ∨
       (deliverAll results items i).status = Status.Warning ∨
       (deliverAll results items i).status = Status.Error) := by
  intro results
  induction results with
  | nil => intro items i h; simp at h
  | cons r rs ih =>
    intro items i h
    rw [deliverAll]
    simp only [List.map_cons, List.mem_cons] at h
    by_cases hi : i = r.item
    · apply deliverAll_keeps_terminal
      simpa [hi] using onResultReadyAt_status_terminal r (items i)
    · apply ih
      rcases h with h | h
      · exact absurd h hi
      · exact h

/-- Witness for C8 at a one-result batch. -/
theorem deliverAll_no_pending_witness :
    ((deliverAll [⟨Status.Ok, 7, "", ⟨1, 2, "/o"⟩, ""⟩] (fun _ => { path := "/p" }) 7).status
        = Status.Ok ∨
     (deliverAll [⟨Status.Ok, 7, "", ⟨1, 2, "/o"⟩, ""⟩] (fun _ => { path := "/p" }) 7).status
        = Status.Warning ∨
     (deliverAll [⟨Status.Ok, 7, "", ⟨1, 2, "/o"⟩, ""⟩] (fun _ => { path := "/p" }) 7).status
        = Status.Error) :=
  deliverAll_no_pending [⟨Status.Ok, 7, "", ⟨1, 2, "/o"⟩, ""⟩] (fun _ => { path := "/p" }) 7
    (by decide)

/-- When the duplicate scan returns its empty sentinel and no stripped input
is itself empty, the stripped input paths are pairwise distinct and disjoint
from the already-seen set. -/
lemma findDuplLoop_empty_nodup :
    ∀ (data : List Config) (set : List String),
      (∀ c ∈ data, stripZ c.inputPath ≠ "") →
      findDuplLoop data set = "" →
      (data.map fun c => stripZ c.inputPath).Nodup ∧
      ∀ c ∈ data, stripZ c.inputPath ∉ set := by
  intro data
  induction data with
  | nil => intro set hne h; simp
  | cons t rest ih =>
    intro set hne h
    simp only [findDuplLoop] at h
    by_cases hmem : stripZ t.inputPath ∈ set
    · rw [if_pos hmem] at h
      exact absurd h (hne t (by simp))
    · rw [if_neg hmem] at h
      obtain ⟨hnd, hnotin⟩ := ih (stripZ t.inputPath :: set) (fun c hc => hne c (by simp [hc])) h
      refine ⟨?_, ?_⟩
      · simp only [List.map_cons, List.nodup_cons]
        refine ⟨?_, hnd⟩
        intro hbad
        obtain ⟨c, hc, hceq⟩ := List.mem_map.mp hbad
        have := hnotin c hc
        simp [hceq] at this
      · intro c hc
        rcases List.mem_cons.mp hc with rfl | hc'
        · exact hmem
        · intro hbad
          exact hnotin c hc' (List.mem_cons_of_mem _ hbad)

/-- A dispatch by `startJobs` means the duplicate scan found nothing, and
the dispatched jobs are the built jobs with only cleaner parameters filled
in (input paths unchanged). -/
lemma startJobs_dispatched (env : StartEnv) (ct : CompressorType) (data : List Config)
    (js : List Config) (h : startJobs env ct data = StartOutcome.dispatched js) :
    findDuplLoop data [] = "" ∧ js.map Config.inputPath = data.map Config.inputPath := by
  unfold startJobs at h
  by_cases he : data.isEmpty = true
  · rw [if_pos he] at h
    simp at h
  · rw [if_neg he] at h
    simp only at h
    by_cases hd : (findDuplLoop data []).isEmpty = false
    · rw [if_pos hd] at h
      simp at h
    · rw [if_neg hd] at h
      have hfd : findDuplLoop data [] = "" := by
        have : (findDuplLoop data []).isEmpty = true := by
          cases hb : (findDuplLoop data []).isEmpty
          · exact absurd hb hd
          · rfl
        exact (String.isEmpty_iff _).mp this
      refine ⟨hfd, ?_⟩
      injection h with h'
      rw [← h']
      simp [List.map_map]

/-- A dispatch by `onStart` is a dispatch by `startJobs` on the jobs built
from the freshly reset tree. -/
lemma onStart_dispatched (env : StartEnv) (tree : TreeItem) (js : List Config)
    (h : (onStart env tree).outcome = StartOutcome.dispatched js) :
    startJobs env (if env.useCompression then env.compressorType else CompressorType.None)
      (builtJobs env tree) = StartOutcome.dispatched js := by
  unfold onStart at h
  split at h
  · simp at h
  · split at h
    · simp at h
    · split at h
      · simp at h
      · split at h
        · rename_i hc
          simp only [] at h
          split at h
          · simp at h
          · rw [builtJobs, if_pos hc]
            exact h
        · rename_i hc
          simp only [] at h
          split at h
          · simp at h
          · rw [builtJobs, if_neg hc]
            exact h

/-- C2 counterexample: two distinct top-level inputs "/a/x.svg" and
"/b/x.svg" both resolve to output "/out/x.svg" under the select-folder
policy with no root folder, yet `onStart` dispatches the batch: the
pre-dispatch check looks at input paths only, never at output paths. -/
theorem onStart_dispatches_colliding_output_paths :
    (onStart fxEnvSel fxTreeCollide).outcome = StartOutcome.dispatched
      [{ inputPath := "/a/x.svg", outputPath := "/out/x.svg",
         treeItem := { path := "/a/x.svg" } },
       { inputPath := "/b/x.svg", outputPath := "/out/x.svg",
         treeItem := { path := "/b/x.svg" } }] ∧
    ({ inputPath := "/a/x.svg", outputPath := "/out/x.svg",
       treeItem := { path := "/a/x.svg" } } : Config).outputPath
      = ({ inputPath := "/b/x.svg", outputPath := "/out/x.svg",
           treeItem := { path := "/b/x.svg" } } : Config).outputPath := by
  decide

/-- C2 (amended): what the pre-dispatch collision check actually
guarantees: in a dispatched batch the input paths are pairwise distinct
after stripping one trailing z/Z, provided no input strips to the empty
string (always true for absolute paths). -/
theorem onStart_dispatched_inputs_nodup_after_strip :
    ∀ (env : StartEnv) (tree : TreeItem) (js : List Config),
      (onStart env tree).outcome = StartOutcome.dispatched js →
      (∀ c ∈ js, stripZ c.inputPath ≠ "") →
      (js.map fun c => stripZ c.inputPath).Nodup := by
  intro env tree js h hne
  obtain ⟨hfd, hmapeq⟩ := startJobs_dispatched env _ _ js (onStart_dispatched env tree js h)
  have hstrip : (js.map fun c => stripZ c.inputPath)
      = ((builtJobs env tree).map fun c => stripZ c.inputPath) := by
    have h2 := congrArg (List.map stripZ) hmapeq
    simpa [List.map_map, Function.comp] using h2
  have hne' : ∀ c ∈ builtJobs env tree, stripZ c.inputPath ≠ "" := by
    intro c hc
    have hm : stripZ c.inputPath ∈ (builtJobs env tree).map fun c => stripZ c.inputPath :=
      List.mem_map_of_mem _ hc
    rw [← hstrip] at hm
    obtain ⟨c', hc', heq⟩ := List.mem_map.mp hm
    rw [← heq]
    exact hne c' hc'
  rw [hstrip]
  exact (findDuplLoop_empty_nodup (builtJobs env tree) [] hne' hfd).1

/-- Witness for the amended C2 at a one-file batch. -/
theorem onStart_dispatched_inputs_nodup_after_strip_witness :
    (([{ inputPath := "/a/x.svg", outputPath := "/out/x.svg",
         treeItem := { path := "/a/x.svg" } }] : List Config).map
      fun c => stripZ c.inputPath).Nodup :=
  onStart_dispatched_inputs_nodup_after_strip fxEnvSel fxTreeSingle
    [{ inputPath := "/a/x.svg", outputPath := "/out/x.svg",
       treeItem := { path := "/a/x.svg" } }]
    (by decide) (by decide)

/-- C3 counterexample: the inputs "z" and "Z" become equal (both empty)
after stripping the trailing z/Z, yet `onStart` dispatches the batch: the
scan stores the first duplicate in the `duplFile` sentinel, and an empty
duplicate is indistinguishable from the no-duplicate sentinel value. -/
theorem onStart_dispatches_z_Z_input_pair :
    stripZ "z" = stripZ "Z" ∧
    (onStart fxEnvOw fxTreeZZ).outcome = StartOutcome.dispatched
      [{ inputPath := "z", outputPath := "",
         treeItem := { path := "z", sizeBefore := 42 } },
       { inputPath := "Z", outputPath := "",
         treeItem := { path := "Z", sizeBefore := 42 } }] := by
  decide

/-- C3 (amended): when the built job list holds two jobs whose input paths
are equal after stripping one trailing z/Z — and no input path strips to
the empty string, which holds for every absolute path — `onStart` never
dispatches: no job runs. -/
theorem onStart_no_dispatch_on_input_collision :
    ∀ (env : StartEnv) (tree : TreeItem),
      ¬ ((builtJobs env tree).map fun c => stripZ c.inputPath).Nodup →
      (∀ c ∈ builtJobs env tree, stripZ c.inputPath ≠ "") →
      ∀ js : List Config, (onStart env tree).outcome ≠ StartOutcome.dispatched js := by
  intro env tree hdup hne js h
  obtain ⟨hfd, _⟩ := startJobs_dispatched env _ _ js (onStart_dispatched env tree js h)
  exact hdup (findDuplLoop_empty_nodup (builtJobs env tree) [] hne hfd).1

/-- Witness for the amended C3: the SVG/SVGZ pair "/a/x.svg", "/a/x.svgz"
is never dispatched. -/
theorem onStart_no_dispatch_on_input_collision_witness :
    (onStart fxEnvOw fxTreeSvgz).outcome ≠ StartOutcome.dispatched [] :=
  onStart_no_dispatch_on_input_collision fxEnvOw fxTreeSvgz (by decide) (by decide) []

/-- `onStart` either returns before touching the tree (resume or one of the
three early validations) or returns with the freshly reset tree. -/
lemma onStart_cases (env : StartEnv) (tree : TreeItem) :
    ((onStart env tree).tree = tree ∧
      ((onStart env tree).outcome = StartOutcome.resumed ∨
       (onStart env tree).outcome = StartOutcome.invalidOutputFolder ∨
       (onStart env tree).outcome = StartOutcome.missingPrefixSuffix ∨
       (onStart env tree).outcome = StartOutcome.compressorMissing)) ∨
    (onStart env tree).tree
      = resetTreeData env.disk tree (env.method = SavingMethod.Overwrite) := by
  unfold onStart
  split
  · exact Or.inl ⟨rfl, Or.inl rfl⟩
  · split
    · exact Or.inl ⟨rfl, Or.inr (Or.inl rfl)⟩
    · split
      · exact Or.inl ⟨rfl, Or.inr (Or.inr (Or.inl rfl))⟩
      · simp only []
        split
        · split
          · exact Or.inl ⟨rfl, Or.inr (Or.inr (Or.inr rfl))⟩
          · exact Or.inr rfl
        · split
          · exact Or.inl ⟨rfl, Or.inr (Or.inr (Or.inr rfl))⟩
          · exact Or.inr rfl

/-- C10: when `onStart` rejects at the empty-job-list or name-collision
check, the tree it leaves behind is the reset tree (cleaning data cleared
and, in overwrite mode, size-before re-read from disk): rejection at these
two checks is not atomic with respect to the previously displayed results. -/
theorem onStart_resets_tree_before_late_rejection :
    ∀ (env : StartEnv) (tree : TreeItem),
      ((onStart env tree).outcome = StartOutcome.rejectedEmpty ∨
        (∃ d, (onStart env tree).outcome = StartOutcome.rejectedCollision d)) →
      (onStart env tree).tree
        = resetTreeData env.disk tree (env.method = SavingMethod.Overwrite) := by
  intro env tree h
  rcases onStart_cases env tree with ⟨_, hout⟩ | htree
  · exfalso
    rcases h with h | ⟨d, h⟩ <;>
      rcases hout with h' | h' | h' | h' <;> rw [h'] at h <;> simp at h
  · exact htree

/-- Witness for C10: rejection at the empty check (a single unchecked file
showing an earlier Ok result) leaves the file reset to Pending with its
size-before re-read from disk — not the tree it started from. -/
theorem onStart_resets_tree_before_late_rejection_witness :
    (onStart fxEnvOw fxTreeOkFile).tree
      = resetTreeData fxEnvOw.disk fxTreeOkFile (fxEnvOw.method = SavingMethod.Overwrite) ∧
    (allItemsList ((onStart fxEnvOw fxTreeOkFile).tree.childrenList)).map
        (fun v => (v.data.status, v.data.sizeBefore, v.data.sizeAfter))
      = [(Status.Pending, 42, none)] ∧
    (allItemsList fxTreeOkFile.childrenList).map
        (fun v => (v.data.status, v.data.sizeBefore, v.data.sizeAfter))
      = [(Status.Ok, 0, some 5)] :=
  ⟨onStart_resets_tree_before_late_rejection fxEnvOw fxTreeOkFile (Or.inl (by decide)),
   by decide, by decide⟩

/-- The traversal's job list extends the accumulator with exactly the files
of the gated traversal (`checkedFilesList`), whatever the root folder and
path parameters are. -/
lemma genCleanDataList_inputs :
    ∀ (l : TreeItemList) (method : SavingMethod) (outFolder : String)
      (settings : AppSettingsModel) (rf : String) (data : List Config),
      ((genCleanDataList l method outFolder settings rf data).2).map Config.inputPath
        = data.map Config.inputPath ++ checkedFilesList l := by
  intro l
  refine @TreeItemList.rec
    (fun item => ∀ (method : SavingMethod) (outFolder : String)
      (settings : AppSettingsModel) (rf : String) (data : List Config),
      ((genCleanData item method outFolder settings rf data).2).map Config.inputPath
        = data.map Config.inputPath ++ checkedFilesList item.childrenList)
    (fun l => ∀ (method : SavingMethod) (outFolder : String)
      (settings : AppSettingsModel) (rf : String) (data : List Config),
      ((genCleanDataList l method outFolder settings rf data).2).map Config.inputPath
        = data.map Config.inputPath ++ checkedFilesList l)
    ?_ ?_ ?_ l
  · intro e c f d children ih method outFolder settings rf data
    simpa [genCleanData, TreeItem.childrenList] using ih method outFolder settings rf data
  · intro method outFolder settings rf data
    simp [genCleanDataList, checkedFilesList]
  · intro item rest ihItem ihRest method outFolder settings rf data
    cases item with
    | node e c f d children =>
      rw [genCleanDataList]
      simp only [TreeItem.isEnabled, TreeItem.checkState, TreeItem.isFolder, TreeItem.data,
        checkedFilesList, checkedFilesItem]
      by_cases hgate : e = false ∨ c ≠ CheckState.Checked
      · rw [if_pos hgate, if_pos hgate, ihRest]
        simp
      · rw [if_neg hgate, if_neg hgate]
        by_cases hf : f = true
        · rw [if_pos hf, if_pos hf]
          rw [ihRest]
          rw [ihItem]
          simp [TreeItem.childrenList, List.append_assoc]
        · rw [if_neg hf, if_neg hf]
          rw [ihRest]
          simp

/-- C1 (amended): the job list holds one job, in document order, for every
non-folder node that is enabled and checked and all of whose enclosing
folders below the root are enabled and checked: the enabled/checked filter
is applied to every node, folders included, so an unchecked or disabled
folder gates descent into its whole subtree. -/
theorem genCleanData_jobs_eq_gated_files :
    ∀ (root : TreeItem) (method : SavingMethod) (outFolder : String)
      (settings : AppSettingsModel),
      ((genCleanData root method outFolder settings "" []).2).map Config.inputPath
        = checkedFilesList root.childrenList := by
  intro root method outFolder settings
  cases root with
  | node e c f d children =>
    simpa [genCleanData, TreeItem.childrenList] using
      genCleanDataList_inputs children method outFolder settings "" []

/-- C1 counterexample: the file "/f/a.svg" is an enabled, checked,
non-folder node reachable in the tree, but because its parent folder is
unchecked the traversal skips the whole subtree and produces no job at all:
a folder's checked state does gate descent. -/
theorem genCleanData_skips_files_under_unchecked_folder :
    (⟨true, CheckState.Checked, false, { path := "/f/a.svg" }⟩ : ItemView)
      ∈ allItemsList fxTreeUnchecked.childrenList ∧
    ((genCleanData fxTreeUnchecked SavingMethod.Overwrite "" ⟨"", ""⟩ "" []).2).map
      Config.inputPath = [] := by
  decide

example : fileName "/a/x.svg" = "x.svg" := by decide
example : absolutePath "/a/b.svgz" = "/a" := by decide
example : dirName "/root" = "root" := by decide
example : relativeFilePath "/root" "/root/sub/a.svg" = "sub/a.svg" := by decide
example : completeBaseName "/a/b.svgz" = "b" := by decide
example : genOutputPath ⟨"pre_", ""⟩ "" "" "/a/b.svgz" SavingMethod.SameFolder = "/a/pre_b.svg" := by decide
example : genOutputPath ⟨"", ""⟩ "/out" "/root" "/root/sub/a.svg" SavingMethod.SelectFolder = "/out/root/sub/a.svg" := by decide
example : genOutputPath ⟨"", ""⟩ "" "" "/a/b.svg" SavingMethod.Overwrite = "/a/b.svg" := by decide
example : genOutputPath ⟨"", ""⟩ "" "" "/a/b.svgz" SavingMethod.Overwrite = "/a/b.svg" := by decide

end SvgCleaner
